import Mathlib

/-!
Verification of the data-cleaning and query-filtering pipeline of the
Volcano Explorer app (`CS230_Final.py`).

The pipeline is shallowly embedded: a pandas DataFrame becomes a
`List Row`; a nullable cell becomes an `Option`; pandas operations that
can raise become `Except`-valued functions.  Each definition mirrors one
line (or expression) of the Python source, noted in its doc comment.
-/

namespace VolcanoApp

/-- A row of the normalized volcano table (the columns the queries use).
Every column read from the spreadsheet is nullable, hence `Option`.
`year` is the derived `year erupted` column. -/
structure Row where
  name : Option String
  country : Option String
  region : Option String
  primaryType : Option String
  tectonic : Option String
  elevation : Option Int
  eruption : Option String
  year : Option Int
  deriving DecidableEq, Repr

/-! ### Loader / normalizer (`load_data`, lines 40-45) -/

/-- The sentinel strings replaced by `pd.NA` on line 43 of the source:
`.replace(["Unknown", "?", "No data", ""], pd.NA)`. -/
def sentinels : List String := ["Unknown", "?", "No data", ""]

/-- Line 43: a cell of the `last known eruption` column after the
sentinel replacement.  A null cell stays null; a sentinel becomes null;
anything else is kept. -/
def replaceSentinel (t : Option String) : Option String :=
  match t with
  | none => none
  | some s => if s ∈ sentinels then none else some s

/-- Numeric value of an ASCII digit character. -/
def digitVal (c : Char) : Nat := c.toNat - ('0').toNat

/-- Value of a block of digit characters read left to right. -/
def runValue (ds : List Char) : Nat := ds.foldl (fun a c => a * 10 + digitVal c) 0

/-- The regex search of line 44, `.str.extract(r'(\d{4})')`: scan left to
right and return the value of the first window of 4 consecutive digit
characters, or `none` when there is no such window. -/
def extract4 : List Char → Option Nat
  | c0 :: c1 :: c2 :: c3 :: rest =>
    if c0.isDigit && c1.isDigit && c2.isDigit && c3.isDigit then
      some (digitVal c0 * 1000 + digitVal c1 * 100 + digitVal c2 * 10 + digitVal c3)
    else
      extract4 (c1 :: c2 :: c3 :: rest)
  | _ => none

/-- Line 44, per cell: `pd.to_numeric(....str.extract(r'(\d{4})')[0],
errors='coerce')`.  A null (or match-free) cell coerces to null, a match
to its integer value; the combination never raises. -/
def deriveYear (t : Option String) : Option Int :=
  match t with
  | none => none
  | some s => (extract4 s.data).map Int.ofNat

/-- Lines 43-44 combined, per cell of the raw `last known eruption`
column: the stored (sentinel-replaced) text and the derived
`year erupted` value. -/
def normalizeEruption (raw : Option String) : Option String × Option Int :=
  (replaceSentinel raw, deriveYear (replaceSentinel raw))

/-! ### Specification-side description of the year extraction -/

/-- `s` has a run of 4 consecutive digit characters starting at index `i`. -/
def fourDigitsAt (s : List Char) (i : Nat) : Bool :=
  ((s.drop i).take 4).length == 4 && ((s.drop i).take 4).all Char.isDigit

/-- Decidable form of "`s` has no 4-consecutive-digit substring":
only offsets below the length need checking. -/
def noFourDigitRun (s : List Char) : Bool :=
  (List.range s.length).all (fun i => !fourDigitsAt s i)

/-! ### Query / filter engine -/

/-- The no-selection placeholder the region select boxes produce
(lines 94, 119, 184 of the source). -/
def placeholderRegion : String := "-- Please select a region --"

/-- The no-selection placeholder of the tectonic-setting select box
(line 149 of the source). -/
def placeholderSetting : String := "-- Please select a tectonic setting --"

/-- Bool test of line 34 / 97 / 128: `df["volcanic region"] == region`.
A null region compares unequal to every selected value. -/
def regionEq (r : Row) (region : String) : Bool := r.region == some region

/-- Bool test of line 125 / 128: `df["elevation (m)"] >= height`.
A null (NaN) elevation compares false. -/
def elevGe (r : Row) (height : Int) : Bool :=
  match r.elevation with
  | some e => height ≤ e
  | none => false

/-- Bool test of line 153: `df["year erupted"].between(lo, hi)` — both
bounds inclusive; a null year compares false. -/
def yearBetween (r : Row) (lo hi : Int) : Bool :=
  match r.year with
  | some y => decide (lo ≤ y) && decide (y ≤ hi)
  | none => false

/-- The region filter of query1 line 97 (also query2 line 128, query4
line 192): the full table when the placeholder is selected, else the rows
whose `volcanic region` equals the selected value. -/
def filterByRegion (df : List Row) (region : String) : List Row :=
  if region = placeholderRegion then df else df.filter (fun r => regionEq r region)

/-- The elevation filter of query2 line 125: rows with
`elevation (m) >= height`. -/
def filterByMinElevation (df : List Row) (height : Int) : List Row :=
  df.filter (fun r => elevGe r height)

/-- The year filter of query3 lines 153-154: rows whose `year erupted`
lies in the inclusive range. -/
def filterByYearRange (df : List Row) (lo hi : Int) : List Row :=
  df.filter (fun r => yearBetween r lo hi)

/-- The tectonic-setting filter of query3 line 154: the full table when
the placeholder is selected, else exact match on `tectonic setting`. -/
def filterByTectonicSetting (df : List Row) (s : String) : List Row :=
  if s = placeholderSetting then df else df.filter (fun r => r.tectonic == some s)

/-- The arithmetic mean pandas `.mean()` computes over the non-null
values: `none` (NaN) when the list is empty. -/
def mean (l : List Int) : Option Rat :=
  if l.isEmpty then none else some ((l.sum : Rat) / (l.length : Rat))

/-- Lines 32-35 of the source:
`count_and_average_height(df, region)` filters by `volcanic region`
unless the region argument is exactly `"All"`, then returns
`(len(df), df["elevation (m)"].mean())`; the pandas mean skips nulls. -/
def count_and_average_height (df : List Row) (region : String) : Nat × Option Rat :=
  let df2 := if region ≠ "All" then df.filter (fun r => regionEq r region) else df
  (df2.length, mean (df2.filterMap Row.elevation))

/-- Does `needle` occur at the head of `hay`? -/
def leadMatch : List Char → List Char → Bool
  | _, [] => true
  | [], _ :: _ => false
  | h :: hs, n :: ns => h == n && leadMatch hs ns

/-- Python substring containment `needle in hay`. -/
def containsSeq : List Char → List Char → Bool
  | [], needle => needle.isEmpty
  | h :: hs, needle => leadMatch (h :: hs) needle || containsSeq hs needle

/-- Lines 49-50 of the source:
`[name for name in df["volcano name"] if "Mount" in name]`.
Iterating in row order, `"Mount" in name` raises a `TypeError` when the
cell holds a null (non-string) value, so the embedding is
`Except`-valued. -/
def get_named_volcanoes (df : List Row) : Except String (List String) :=
  match df with
  | [] => Except.ok []
  | r :: rs =>
    match r.name with
    | none => Except.error "TypeError: argument of type float is not iterable"
    | some n =>
      match get_named_volcanoes rs with
      | Except.error e => Except.error e
      | Except.ok names =>
        Except.ok (if containsSeq n.data ("Mount").data then n :: names else names)

/-! ### `value_counts` / `head` (query4 lines 196-200) -/

/-- Pair every element of a list with its index, starting from `i`. -/
def withIdx : Nat → List String → List (String × Nat)
  | _, [] => []
  | i, v :: vs => (v, i) :: withIdx (i + 1) vs

/-- Index of the first occurrence of `v` in `l` (its length when absent). -/
def firstIdx (l : List String) (v : String) : Nat :=
  match l with
  | [] => 0
  | x :: xs => if x == v then 0 else firstIdx xs v + 1

/-- The (value, index) pairs of the first occurrence of each distinct
value of `l`, in order of first encounter. -/
def firstOccs (l : List String) : List (String × Nat) :=
  (withIdx 0 l).filter (fun p => firstIdx l p.1 == p.2)

/-- One line of the tally pandas `value_counts` builds before sorting:
a distinct value, its number of occurrences, and the index of its first
occurrence. -/
structure Entry where
  val : String
  cnt : Nat
  pos : Nat
  deriving DecidableEq, Repr

/-- The unsorted tally of `value_counts`: one `Entry` per distinct
value, in order of first encounter. -/
def entries (l : List String) : List Entry :=
  (firstOccs l).map (fun p => ⟨p.1, List.count p.1 l, p.2⟩)

/-- Insert an entry into a count-descending list, in front of the first
entry of smaller-or-equal count (stable for the entry with the smaller
first-occurrence index, which is always the one being inserted). -/
def insertEntry (x : Entry) : List Entry → List Entry
  | [] => [x]
  | y :: ys => if y.cnt ≤ x.cnt then x :: y :: ys else y :: insertEntry x ys

/-- Stable insertion sort by descending count. -/
def sortEntries : List Entry → List Entry
  | [] => []
  | x :: xs => insertEntry x (sortEntries xs)

/-- The strict order `sortEntries` establishes: larger count first, ties
by first-occurrence index. -/
def entryRel (a b : Entry) : Prop := b.cnt < a.cnt ∨ (a.cnt = b.cnt ∧ a.pos < b.pos)

/-- Line 196: `filtered["primary volcano type"].value_counts()` —
(value, count) pairs of the distinct non-null values, most frequent
first, ties in order of first encounter. -/
def valueCounts (l : List String) : List (String × Nat) :=
  (sortEntries (entries l)).map (fun t => (t.val, t.cnt))

/-- Lines 196 and 200 composed, with the category column and the `head`
bound as parameters: `filtered[field].value_counts().head(n)`.
`value_counts` drops null cells, which `filterMap` mirrors. -/
def topCategoryCounts (df : List Row) (field : Row → Option String) (n : Nat) :
    List (String × Nat) :=
  (valueCounts (df.filterMap field)).take n

/-- Query2 lines 124-128: the rows shown by query 2 for a selected
region and minimum elevation.  With the placeholder the filter is
elevation only; otherwise it is the conjunction of both tests. -/
def query2_filtered (df : List Row) (region : String) (height : Int) : List Row :=
  if region = placeholderRegion then
    df.filter (fun r => elevGe r height)
  else
    df.filter (fun r => regionEq r region && elevGe r height)

/-- Query2 line 130: `count_and_average_height(filtered, region)` with
`region` the raw select-box value. -/
def query2_summary (df : List Row) (region : String) (height : Int) : Nat × Option Rat :=
  count_and_average_height (query2_filtered df region height) region

/-! ### Sample rows (used by the witness theorems) -/

/-- A fully populated sample row. -/
def rowA : Row :=
  ⟨some "Mount Kenya", some "Kenya", some "Africa", some "Stratovolcano",
   some "Rift zone", some 5199, some "1991 CE", some 1991⟩

/-- A sample row with null tectonic setting, eruption and year. -/
def rowB : Row :=
  ⟨some "Erta Ale", some "Ethiopia", some "Africa", some "Shield",
   none, some 613, none, none⟩

/-- A sample row with null elevation. -/
def rowC : Row :=
  ⟨some "Fuji", some "Japan", some "Asia", some "Stratovolcano",
   some "Subduction zone", none, some "1707 CE", some 1707⟩

/-- A sample table. -/
def dfW : List Row := [rowA, rowB, rowC]

/-- A row whose volcano name is null (a NaN cell in the spreadsheet). -/
def nullNameRow : Row :=
  ⟨none, some "Chile", some "South America", some "Stratovolcano",
   none, some 6893, none, none⟩

/-! ### Basic facts about the filters -/

theorem mean_eq_none_iff (l : List Int) : mean l = none ↔ l = [] := by
  cases l <;> simp [mean]

theorem elevGe_and_mono {r : Row} {t tl : Int} (h : tl ≤ t) :
    (elevGe r tl && elevGe r t) = elevGe r t := by
  cases he : r.elevation with
  | none => simp [elevGe, he]
  | some e =>
    by_cases ht : t ≤ e
    · simp [elevGe, he, ht, le_trans h ht]
    · simp [elevGe, he, ht]

/-- C8: filtering by a minimum elevation is idempotent — re-filtering the
result with the same or a lower threshold returns the same list of rows —
and rows with a null elevation are excluded. -/
theorem filterByMinElevation_idem (df : List Row) (t tl : Int) (h : tl ≤ t) :
    filterByMinElevation (filterByMinElevation df t) tl = filterByMinElevation df t ∧
    ∀ r ∈ filterByMinElevation df t, r.elevation ≠ none := by
  constructor
  · unfold filterByMinElevation
    rw [List.filter_filter]
    exact List.filter_congr (fun r _ => elevGe_and_mono h)
  · intro r hr hnone
    have := (List.mem_filter.mp hr).2
    rw [elevGe, hnone] at this
    exact Bool.false_ne_true this

/-- Witness for the idempotence claim at a concrete table and thresholds. -/
theorem filterByMinElevation_idem_witness :
    filterByMinElevation (filterByMinElevation dfW 1000) 500 =
      filterByMinElevation dfW 1000 ∧
    ∀ r ∈ filterByMinElevation dfW 1000, r.elevation ≠ none :=
  filterByMinElevation_idem dfW 1000 500 (by decide)

/-- C9: the region filter and the minimum-elevation filter commute, for
every region selection (placeholder included) and every threshold. -/
theorem region_elevation_filters_commute (df : List Row) (R : String) (t : Int) :
    filterByMinElevation (filterByRegion df R) t
      = filterByRegion (filterByMinElevation df t) R := by
  unfold filterByRegion filterByMinElevation
  by_cases hR : R = placeholderRegion
  · simp [hR]
  · rw [if_neg hR, if_neg hR, List.filter_filter, List.filter_filter]
    exact List.filter_congr (fun r _ => Bool.and_comm _ _)

/-- C5: with the no-selection placeholder the region filter returns the
input table itself (same rows, same order); with any other value it keeps
exactly the rows whose region equals that value, compared as raw strings
(hence case-sensitively), nulls never matching. -/
theorem filterByRegion_spec (df : List Row) :
    filterByRegion df placeholderRegion = df ∧
    ∀ R, R ≠ placeholderRegion →
      filterByRegion df R = df.filter (fun r => decide (r.region = some R)) := by
  constructor
  · simp [filterByRegion]
  · intro R hR
    rw [filterByRegion, if_neg hR]
    apply List.filter_congr
    intro r _
    rw [regionEq, Bool.eq_iff_iff]
    simp

/-- Witness for the region-filter claim at a concrete table and region. -/
theorem filterByRegion_spec_witness :
    filterByRegion dfW "Africa" = dfW.filter (fun r => decide (r.region = some "Africa")) :=
  (filterByRegion_spec dfW).2 "Africa" (by decide)

/-- C10: the year-range filter keeps, in order, exactly the rows whose
derived eruption year lies inside the inclusive range; rows with a null
year are excluded. -/
theorem filterByYearRange_spec (df : List Row) (lo hi : Int) :
    (filterByYearRange df lo hi).Sublist df ∧
    (∀ r, r ∈ filterByYearRange df lo hi ↔
      r ∈ df ∧ ∃ y, r.year = some y ∧ lo ≤ y ∧ y ≤ hi) ∧
    (∀ r, r.year = none → r ∉ filterByYearRange df lo hi) := by
  refine ⟨List.filter_sublist _, fun r => ?_, fun r hr hmem => ?_⟩
  · rw [filterByYearRange, List.mem_filter]
    constructor
    · rintro ⟨hmem, hb⟩
      refine ⟨hmem, ?_⟩
      cases hy : r.year with
      | none => rw [yearBetween, hy] at hb; cases hb
      | some y =>
        rw [yearBetween, hy, Bool.and_eq_true, decide_eq_true_eq, decide_eq_true_eq] at hb
        exact ⟨y, rfl, hb.1, hb.2⟩
    · rintro ⟨hmem, y, hy, h1, h2⟩
      refine ⟨hmem, ?_⟩
      rw [yearBetween, hy]
      simp [h1, h2]
  · have := (List.mem_filter.mp hmem).2
    rw [yearBetween, hr] at this
    exact Bool.false_ne_true this

/-- C4: every sentinel eruption-date string is normalized to a null
stored value, and its derived eruption year is null. -/
theorem sentinel_normalizes_to_null (s : String) (h : s ∈ sentinels) :
    normalizeEruption (some s) = (none, none) := by
  rw [normalizeEruption, replaceSentinel]
  rw [if_pos h]
  rfl

/-- Witness for the sentinel claim at the concrete string "Unknown". -/
theorem sentinel_normalizes_to_null_witness :
    normalizeEruption (some "Unknown") = (none, none) :=
  sentinel_normalizes_to_null "Unknown" (by decide)

/-! ### The year extraction finds the first 4-digit run -/

theorem fourDigitsAt_cons (c : Char) (cs : List Char) (i : Nat) :
    fourDigitsAt (c :: cs) (i + 1) = fourDigitsAt cs i := rfl

theorem fourDigitsAt_zero (c0 c1 c2 c3 : Char) (rest : List Char) :
    fourDigitsAt (c0 :: c1 :: c2 :: c3 :: rest) 0
      = (c0.isDigit && c1.isDigit && c2.isDigit && c3.isDigit) := by
  cases h0 : c0.isDigit <;> cases h1 : c1.isDigit <;> cases h2 : c2.isDigit <;>
    cases h3 : c3.isDigit <;> simp [fourDigitsAt, h0, h1, h2, h3]

theorem fourDigitsAt_le_length (s : List Char) (i : Nat)
    (h : fourDigitsAt s i = true) : i + 4 ≤ s.length := by
  rw [fourDigitsAt, Bool.and_eq_true] at h
  have := h.1
  rw [Nat.beq_eq_true_eq, List.length_take, List.length_drop] at this
  omega

theorem fourDigitsAt_of_long (s : List Char) (i : Nat) (h : s.length < i + 4) :
    fourDigitsAt s i = false := by
  cases hb : fourDigitsAt s i with
  | false => rfl
  | true => exact absurd (fourDigitsAt_le_length s i hb) (by omega)

theorem all_false_of_noRun (s : List Char) (h : noFourDigitRun s = true) :
    ∀ i, fourDigitsAt s i = false := by
  intro i
  rcases Nat.lt_or_ge i s.length with hi | hi
  · have := List.all_eq_true.mp h i (List.mem_range.mpr hi)
    simpa using this
  · exact fourDigitsAt_of_long s i (by omega)

theorem extract4_eq_none (s : List Char) (h : ∀ i, fourDigitsAt s i = false) :
    extract4 s = none := by
  induction s with
  | nil => rfl
  | cons c0 cs ih =>
    cases cs with
    | nil => rfl
    | cons c1 cs =>
      cases cs with
      | nil => rfl
      | cons c2 cs =>
        cases cs with
        | nil => rfl
        | cons c3 rest =>
          have h0 := h 0
          rw [fourDigitsAt_zero] at h0
          have htail : ∀ i, fourDigitsAt (c1 :: c2 :: c3 :: rest) i = false := by
            intro i
            have := h (i + 1)
            rwa [fourDigitsAt_cons] at this
          rw [extract4, h0]
          exact ih htail

theorem extract4_eq_some (s : List Char) (i : Nat) (h : fourDigitsAt s i = true)
    (hmin : ∀ j, j < i → fourDigitsAt s j = false) :
    extract4 s = some (runValue ((s.drop i).take 4)) := by
  induction s generalizing i with
  | nil => exact absurd (fourDigitsAt_le_length _ _ h) (by simp)
  | cons c0 cs ih =>
    cases cs with
    | nil => exact absurd (fourDigitsAt_le_length _ _ h) (by simp)
    | cons c1 cs =>
      cases cs with
      | nil => exact absurd (fourDigitsAt_le_length _ _ h) (by simp)
      | cons c2 cs =>
        cases cs with
        | nil => exact absurd (fourDigitsAt_le_length _ _ h) (by simp)
        | cons c3 rest =>
          cases i with
          | zero =>
            have h0 : (c0.isDigit && c1.isDigit && c2.isDigit && c3.isDigit) = true := by
              rwa [fourDigitsAt_zero] at h
            rw [extract4, h0]
            simp only [if_true, List.drop_zero, List.take_succ_cons, List.take_zero,
              runValue, List.foldl]
            congr 1
            ring
          | succ j =>
            have h0 : fourDigitsAt (c0 :: c1 :: c2 :: c3 :: rest) 0 = false :=
              hmin 0 (Nat.succ_pos j)
            rw [fourDigitsAt_zero] at h0
            rw [extract4, h0]
            have hj : fourDigitsAt (c1 :: c2 :: c3 :: rest) j = true := by
              rwa [fourDigitsAt_cons] at h
            have hjmin : ∀ k, k < j → fourDigitsAt (c1 :: c2 :: c3 :: rest) k = false := by
              intro k hk
              have := hmin (k + 1) (Nat.succ_lt_succ hk)
              rwa [fourDigitsAt_cons] at this
            exact ih j hj hjmin

/-- The four sentinel strings contain no digits at all. -/
theorem sentinel_no_run (s : String) (h : s ∈ sentinels) :
    ∀ i, fourDigitsAt s.data i = false := by
  have h2 : s = "Unknown" ∨ s = "?" ∨ s = "No data" ∨ s = "" := by
    simpa [sentinels] using h
  rcases h2 with rfl | rfl | rfl | rfl
  · exact all_false_of_noRun _ (by decide)
  · exact all_false_of_noRun _ (by decide)
  · exact all_false_of_noRun _ (by decide)
  · exact all_false_of_noRun _ (by decide)

/-- C1: for every cell of the eruption-date column, the `year erupted`
value `load_data` derives is the integer value of the first window of 4
consecutive digits of the cell text; it is null when the cell is null and
null when the text has no such window — the derivation is a total
function, so it can only produce null, never fail. -/
theorem derived_year_first_four_digit_run :
    ((normalizeEruption none).2 = none) ∧
    (∀ s : String, (∀ i, fourDigitsAt s.data i = false) →
      (normalizeEruption (some s)).2 = none) ∧
    (∀ s : String, ∀ i, fourDigitsAt s.data i = true →
      (∀ j, j < i → fourDigitsAt s.data j = false) →
      (normalizeEruption (some s)).2
        = some (Int.ofNat (runValue ((s.data.drop i).take 4)))) := by
  refine ⟨rfl, ?_, ?_⟩
  · intro s hs
    rw [normalizeEruption, replaceSentinel]
    by_cases hsen : s ∈ sentinels
    · rw [if_pos hsen]; rfl
    · rw [if_neg hsen]
      show (deriveYear (some s)) = none
      rw [deriveYear, extract4_eq_none s.data hs]
      rfl
  · intro s i h hmin
    by_cases hsen : s ∈ sentinels
    · exact absurd h (by rw [sentinel_no_run s hsen i]; exact Bool.false_ne_true)
    · rw [normalizeEruption, replaceSentinel, if_neg hsen]
      show (deriveYear (some s)) = _
      rw [deriveYear, extract4_eq_some s.data i h hmin]
      rfl

/-- Witness for the year-derivation claim: in "ca. 1991 (1992?)" the
first 4-digit window starts at index 4 and the derived year is 1991. -/
theorem derived_year_witness :
    (normalizeEruption (some "ca. 1991 (1992?)")).2 = some 1991 := by
  have h := derived_year_first_four_digit_run.2.2 "ca. 1991 (1992?)" 4
    (by decide)
    (fun j hj => by interval_cases j <;> decide)
  rw [h]
  decide

/-! ### Null policy of the filters (and the exception in the name filter) -/

/-- C2 counterexample: on a table whose single row has a null volcano
name, `get_named_volcanoes` raises (a `TypeError` from `"Mount" in name`)
instead of excluding the row, so the filtering operations do not all
tolerate every null field. -/
theorem named_volcanoes_raises_on_null_name :
    (get_named_volcanoes [nullNameRow]).isOk = false := by decide

/-- C2 (amended): the row filters never fail on a null field — a row
whose relevant field is null is excluded, and a null in any other field
does not affect membership (membership depends only on the relevant
field) — but `get_named_volcanoes` is an exception: it only returns a
result (the names containing "Mount") when every row's volcano name is
non-null. -/
theorem filters_null_policy (df : List Row) :
    (∀ t r, r ∈ filterByMinElevation df t ↔
      r ∈ df ∧ ∃ e, r.elevation = some e ∧ t ≤ e) ∧
    (∀ lo hi r, r ∈ filterByYearRange df lo hi ↔
      r ∈ df ∧ ∃ y, r.year = some y ∧ lo ≤ y ∧ y ≤ hi) ∧
    (∀ s r, s ≠ placeholderSetting →
      (r ∈ filterByTectonicSetting df s ↔ r ∈ df ∧ r.tectonic = some s)) ∧
    ((∀ r ∈ df, r.name ≠ none) →
      get_named_volcanoes df = Except.ok (df.filterMap (fun r =>
        Option.filter (fun n => containsSeq n.data ("Mount").data) r.name))) := by
  refine ⟨?_, ?_, ?_, ?_⟩
  · intro t r
    rw [filterByMinElevation, List.mem_filter]
    cases he : r.elevation with
    | none => simp [elevGe, he]
    | some e => simp [elevGe, he]
  · intro lo hi r
    exact (filterByYearRange_spec df lo hi).2.1 r
  · intro s r hs
    rw [filterByTectonicSetting, if_neg hs, List.mem_filter]
    rw [beq_iff_eq]
  · intro hnames
    induction df with
    | nil => rfl
    | cons r rs ih =>
      cases hn : r.name with
      | none => exact absurd hn (hnames r (List.mem_cons_self r rs))
      | some n =>
        rw [get_named_volcanoes, hn,
          ih (fun x hx => hnames x (List.mem_cons_of_mem r hx))]
        rw [List.filterMap_cons, hn]
        cases hc : containsSeq n.data ("Mount").data <;>
          simp [Option.filter, hc]

/-- Witness for the null-policy claim: on the sample table, whose names
are all non-null, the name filter succeeds. -/
theorem filters_null_policy_witness :
    get_named_volcanoes dfW = Except.ok (dfW.filterMap (fun r =>
      Option.filter (fun n => containsSeq n.data ("Mount").data) r.name)) :=
  (filters_null_policy dfW).2.2.2 (by decide)

/-! ### Count and average elevation -/

/-- C3: applying `count_and_average_height` with the `"All"` sentinel to
the region-filtered table returns the number of rows whose region equals
the selected value, paired with the mean elevation over the non-null
elevations of those rows; the mean is null (NaN) exactly when no such
row has an elevation. -/
theorem count_and_average_of_region_filter (df : List Row) (R : String)
    (h : R ≠ placeholderRegion) :
    count_and_average_height (filterByRegion df R) "All"
      = (df.countP (fun r => regionEq r R),
         mean ((df.filter (fun r => regionEq r R)).filterMap Row.elevation)) ∧
    ((count_and_average_height (filterByRegion df R) "All").2 = none ↔
      (df.filter (fun r => regionEq r R)).filterMap Row.elevation = []) := by
  have hfil : filterByRegion df R = df.filter (fun r => regionEq r R) := by
    rw [filterByRegion, if_neg h]
  have hmain : count_and_average_height (filterByRegion df R) "All"
      = ((df.filter (fun r => regionEq r R)).length,
         mean ((df.filter (fun r => regionEq r R)).filterMap Row.elevation)) := by
    rw [hfil, count_and_average_height]
    simp
  constructor
  · rw [hmain, List.countP_eq_length_filter]
  · rw [hmain]
    exact mean_eq_none_iff _

/-- Witness for the count-and-average claim at the sample table and the
region "Africa". -/
theorem count_and_average_witness :
    count_and_average_height (filterByRegion dfW "Africa") "All"
      = (dfW.countP (fun r => regionEq r "Africa"),
         mean ((dfW.filter (fun r => regionEq r "Africa")).filterMap Row.elevation)) ∧
    ((count_and_average_height (filterByRegion dfW "Africa") "All").2 = none ↔
      (dfW.filter (fun r => regionEq r "Africa")).filterMap Row.elevation = []) :=
  count_and_average_of_region_filter dfW "Africa" (by decide)

/-- C6: `count_and_average_height` treats exactly the string `"All"` as
its no-filter sentinel — with it the whole table is counted and averaged;
with any other argument it filters for rows whose region literally equals
that string — so when query2 hands it the select-box placeholder, it
returns count 0 and a null (NaN) mean as soon as no row's region equals
the placeholder text. -/
theorem count_and_average_sentinel_mismatch (df : List Row) (height : Int) :
    (count_and_average_height df "All"
      = (df.length, mean (df.filterMap Row.elevation))) ∧
    (∀ R, R ≠ "All" →
      count_and_average_height df R
        = ((df.filter (fun r => regionEq r R)).length,
           mean ((df.filter (fun r => regionEq r R)).filterMap Row.elevation))) ∧
    ((∀ r ∈ df, r.region ≠ some placeholderRegion) →
      query2_summary df placeholderRegion height = (0, none)) := by
  refine ⟨?_, ?_, ?_⟩
  · rw [count_and_average_height]
    simp
  · intro R hR
    rw [count_and_average_height]
    simp [hR]
  · intro hreg
    rw [query2_summary, query2_filtered, if_pos rfl, count_and_average_height]
    have hph : placeholderRegion ≠ "All" := by decide
    simp only [if_pos hph, ne_eq]
    have hempty : (df.filter (fun r => elevGe r height)).filter
        (fun r => regionEq r placeholderRegion) = [] := by
      rw [List.filter_eq_nil_iff]
      intro r hr
      have hrdf : r ∈ df := (List.mem_filter.mp hr).1
      rw [regionEq]
      simpa using hreg r hrdf
    rw [hempty]
    rfl

/-- Witness for the sentinel-mismatch claim: on the sample table no row
carries the placeholder text as its region, so query2's summary under the
placeholder is count 0 with a null mean. -/
theorem count_and_average_sentinel_mismatch_witness :
    query2_summary dfW placeholderRegion 0 = (0, none) :=
  (count_and_average_sentinel_mismatch dfW 0).2.2 (by decide)

/-! ### Properties of `value_counts` and `head` -/

theorem mem_withIdx_le (i : Nat) (l : List String) :
    ∀ p ∈ withIdx i l, i ≤ p.2 := by
  induction l generalizing i with
  | nil => intro p hp; cases hp
  | cons v vs ih =>
    intro p hp
    rcases List.mem_cons.mp hp with rfl | hp2
    · exact Nat.le_refl i
    · exact Nat.le_of_succ_le (ih (i + 1) p hp2)

theorem mem_withIdx_val (i : Nat) (l : List String) :
    ∀ p ∈ withIdx i l, p.1 ∈ l := by
  induction l generalizing i with
  | nil => intro p hp; cases hp
  | cons v vs ih =>
    intro p hp
    rcases List.mem_cons.mp hp with rfl | hp2
    · exact List.mem_cons_self _ _
    · exact List.mem_cons_of_mem _ (ih (i + 1) p hp2)

theorem withIdx_pairwise (i : Nat) (l : List String) :
    (withIdx i l).Pairwise (fun p q => p.2 < q.2) := by
  induction l generalizing i with
  | nil => exact List.Pairwise.nil
  | cons v vs ih =>
    refine List.Pairwise.cons ?_ (ih (i + 1))
    intro q hq
    exact Nat.lt_of_lt_of_le (Nat.lt_succ_self i) (mem_withIdx_le (i + 1) vs q hq)

theorem firstIdx_mem_withIdx (l : List String) (v : String) (hv : v ∈ l) :
    ∀ i, (v, i + firstIdx l v) ∈ withIdx i l := by
  induction l with
  | nil => cases hv
  | cons x xs ih =>
    intro i
    by_cases hx : x == v
    · have hxv : x = v := by simpa using hx
      rw [firstIdx, if_pos hx]
      subst hxv
      exact List.mem_cons_self _ _
    · have hv2 : v ∈ xs := by
        rcases List.mem_cons.mp hv with h | hv2
        · subst h
          simp at hx
        · exact hv2
      rw [firstIdx, if_neg hx]
      have harith : i + (firstIdx xs v + 1) = (i + 1) + firstIdx xs v := by omega
      rw [harith]
      exact List.mem_cons_of_mem _ (ih hv2 (i + 1))

theorem mem_firstOccs (l : List String) (v : String) (hv : v ∈ l) :
    (v, firstIdx l v) ∈ firstOccs l := by
  rw [firstOccs]
  apply List.mem_filter.mpr
  refine ⟨?_, by simp⟩
  simpa using firstIdx_mem_withIdx l v hv 0

theorem firstOccs_sound (l : List String) :
    ∀ p ∈ firstOccs l, p.1 ∈ l ∧ p.2 = firstIdx l p.1 := by
  intro p hp
  have h := List.mem_filter.mp hp
  refine ⟨mem_withIdx_val 0 l p h.1, ?_⟩
  have h3 : firstIdx l p.1 = p.2 := by simpa using h.2
  exact h3.symm

theorem firstOccs_pairwise (l : List String) :
    (firstOccs l).Pairwise (fun p q => p.2 < q.2) :=
  List.Pairwise.sublist (List.filter_sublist _) (withIdx_pairwise 0 l)

theorem firstOccs_val_nodup (l : List String) :
    ((firstOccs l).map Prod.fst).Nodup := by
  rw [List.Nodup, List.pairwise_map]
  apply (firstOccs_pairwise l).imp_of_mem
  intro p q hp hq hlt heq
  have hp2 := (firstOccs_sound l p hp).2
  have hq2 := (firstOccs_sound l q hq).2
  rw [hp2, hq2, heq] at hlt
  exact Nat.lt_irrefl _ hlt

theorem entries_val_perm_dedup (l : List String) :
    ((entries l).map Entry.val).Perm l.dedup := by
  have hval : (entries l).map Entry.val = (firstOccs l).map Prod.fst := by
    rw [entries, List.map_map]
    rfl
  rw [hval]
  apply (List.perm_ext_iff_of_nodup (firstOccs_val_nodup l) (List.nodup_dedup l)).mpr
  intro v
  rw [List.mem_dedup]
  constructor
  · intro hv
    obtain ⟨p, hp, rfl⟩ := List.mem_map.mp hv
    exact (firstOccs_sound l p hp).1
  · intro hv
    exact List.mem_map.mpr ⟨(v, firstIdx l v), mem_firstOccs l v hv, rfl⟩

theorem entries_pos_pairwise (l : List String) :
    (entries l).Pairwise (fun a b => a.pos < b.pos) := by
  rw [entries, List.pairwise_map]
  exact firstOccs_pairwise l

theorem mem_entries (l : List String) :
    ∀ t ∈ entries l, t.pos = firstIdx l t.val ∧ t.cnt = List.count t.val l := by
  intro t ht
  obtain ⟨p, hp, rfl⟩ := List.mem_map.mp ht
  exact ⟨(firstOccs_sound l p hp).2, rfl⟩

theorem insertEntry_perm (x : Entry) (ys : List Entry) :
    (insertEntry x ys).Perm (x :: ys) := by
  induction ys with
  | nil => exact List.Perm.refl _
  | cons y ys ih =>
    rw [insertEntry]
    by_cases h : y.cnt ≤ x.cnt
    · rw [if_pos h]
    · rw [if_neg h]
      exact (List.Perm.cons y ih).trans (List.Perm.swap x y ys)

theorem sortEntries_perm (l : List Entry) : (sortEntries l).Perm l := by
  induction l with
  | nil => exact List.Perm.refl _
  | cons x xs ih =>
    exact (insertEntry_perm x (sortEntries xs)).trans (List.Perm.cons x ih)

theorem entryRel_cnt_le {a b : Entry} (h : entryRel a b) : b.cnt ≤ a.cnt := by
  rcases h with h | ⟨h, _⟩
  · exact Nat.le_of_lt h
  · exact Nat.le_of_eq h.symm

theorem insertEntry_pairwise (x : Entry) (ys : List Entry)
    (hys : ys.Pairwise entryRel) (hpos : ∀ y ∈ ys, x.pos < y.pos) :
    (insertEntry x ys).Pairwise entryRel := by
  induction ys with
  | nil => exact List.pairwise_singleton _ _
  | cons y ys ih =>
    rw [insertEntry]
    obtain ⟨hy, hys2⟩ := List.pairwise_cons.mp hys
    by_cases h : y.cnt ≤ x.cnt
    · rw [if_pos h]
      refine List.Pairwise.cons ?_ hys
      intro z hz
      rcases List.mem_cons.mp hz with rfl | hz2
      · rcases Nat.lt_or_ge z.cnt x.cnt with hlt | hge
        · exact Or.inl hlt
        · exact Or.inr ⟨Nat.le_antisymm hge h ▸ rfl, hpos z (List.mem_cons_self _ _)⟩
      · have hzy : z.cnt ≤ y.cnt := entryRel_cnt_le (hy z hz2)
        rcases Nat.lt_or_ge z.cnt x.cnt with hlt | hge
        · exact Or.inl hlt
        · have hcnt : x.cnt = z.cnt := Nat.le_antisymm hge (Nat.le_trans hzy h)
          exact Or.inr ⟨hcnt, hpos z (List.mem_cons_of_mem _ hz2)⟩
    · rw [if_neg h]
      refine List.Pairwise.cons ?_ (ih hys2 (fun z hz => hpos z (List.mem_cons_of_mem _ hz)))
      intro z hz
      rcases List.mem_cons.mp ((insertEntry_perm x ys).mem_iff.mp hz) with rfl | hz2
      · exact Or.inl (Nat.lt_of_not_le h)
      · exact hy z hz2

theorem sortEntries_pairwise (l : List Entry)
    (hl : l.Pairwise (fun a b => a.pos < b.pos)) :
    (sortEntries l).Pairwise entryRel := by
  induction l with
  | nil => exact List.Pairwise.nil
  | cons x xs ih =>
    obtain ⟨hx, hxs⟩ := List.pairwise_cons.mp hl
    exact insertEntry_pairwise x _ (ih hxs)
      (fun y hy => hx y ((sortEntries_perm xs).mem_iff.mp hy))

theorem entries_cnt_sum (l : List String) :
    ((entries l).map Entry.cnt).sum = l.length := by
  have h1 : (entries l).map Entry.cnt = (firstOccs l).map (fun p => List.count p.1 l) := by
    rw [entries, List.map_map]
    rfl
  have h2 : ((entries l).map Entry.val).map (fun v => List.count v l)
      = (firstOccs l).map (fun p => List.count p.1 l) := by
    rw [entries, List.map_map, List.map_map]
    rfl
  rw [h1, ← h2, ((entries_val_perm_dedup l).map (fun v => List.count v l)).sum_eq]
  exact List.sum_map_count_dedup_eq_length l

theorem sum_take_le (l : List Nat) (n : Nat) : (l.take n).sum ≤ l.sum := by
  conv_rhs => rw [← List.take_append_drop n l]
  rw [List.sum_append]
  exact Nat.le_add_right _ _

/-- C7: `topCategoryCounts` returns at most `n` pairs, sorted by
descending count with ties in order of first encounter in the table, and
the counts it returns sum to at most the number of rows of the table. -/
theorem topCategoryCounts_spec (df : List Row) (field : Row → Option String) (n : Nat) :
    (topCategoryCounts df field n).length ≤ n ∧
    (topCategoryCounts df field n).Pairwise (fun a b => b.2 ≤ a.2) ∧
    (topCategoryCounts df field n).Pairwise (fun a b => a.2 = b.2 →
      firstIdx (df.filterMap field) a.1 < firstIdx (df.filterMap field) b.1) ∧
    ((topCategoryCounts df field n).map Prod.snd).sum ≤ df.length := by
  have hS : (sortEntries (entries (df.filterMap field))).Pairwise entryRel :=
    sortEntries_pairwise _ (entries_pos_pairwise _)
  have hSfull : (valueCounts (df.filterMap field)).Pairwise
      (fun a b => b.2 ≤ a.2 ∧ (a.2 = b.2 →
        firstIdx (df.filterMap field) a.1 < firstIdx (df.filterMap field) b.1)) := by
    rw [valueCounts, List.pairwise_map]
    apply hS.imp_of_mem
    intro a b ha hb hab
    have ha2 := mem_entries _ a ((sortEntries_perm _).mem_iff.mp ha)
    have hb2 := mem_entries _ b ((sortEntries_perm _).mem_iff.mp hb)
    refine ⟨entryRel_cnt_le hab, fun hcnt => ?_⟩
    rcases hab with h | ⟨_, h⟩
    · exact absurd hcnt (by simp only [ne_eq]; omega)
    · rw [← ha2.1, ← hb2.1]
      exact h
  have htop : (topCategoryCounts df field n).Pairwise
      (fun a b => b.2 ≤ a.2 ∧ (a.2 = b.2 →
        firstIdx (df.filterMap field) a.1 < firstIdx (df.filterMap field) b.1)) :=
    List.Pairwise.sublist (List.take_sublist n _) hSfull
  refine ⟨?_, ?_, ?_, ?_⟩
  · rw [topCategoryCounts]
    exact List.length_take_le n _
  · exact htop.imp (fun h => h.1)
  · exact htop.imp (fun h => h.2)
  · rw [topCategoryCounts, List.map_take]
    refine Nat.le_trans (sum_take_le _ n) ?_
    have hsnd : (valueCounts (df.filterMap field)).map Prod.snd
        = (sortEntries (entries (df.filterMap field))).map Entry.cnt := by
      rw [valueCounts, List.map_map]
      rfl
    rw [hsnd, ((sortEntries_perm (entries (df.filterMap field))).map Entry.cnt).sum_eq,
      entries_cnt_sum]
    exact List.length_filterMap_le field df

end VolcanoApp
